import Mathlib

/-!
Verification of the DroneCAN identifier codec and transfer reassembler.

The definitions below are a shallow embedding of the Rust sources
(`src/id.rs`, `src/transfer.rs`).  Machine integers are modelled as `Nat`
with explicit masking where the source masks; Rust `Option`/`Result`
become `Option`/`Except`; a Rust panic (out-of-bounds slice index) is
modelled as `none` in an outer `Option` layer.
-/

set_option maxHeartbeats 1000000

namespace DroneCAN

/-! ## Identifier codec (src/id.rs) -/

/-- DroneCAN identifier: `enum Id` from src/id.rs. -/
inductive Id where
  | Message (priority : Nat) (type_id : Nat) (source_node : Nat)
  | Anonymous (priority : Nat) (discriminator : Nat) (type_id : Nat)
  | Service (priority : Nat) (service_type : Nat) (request : Bool)
      (destination_node : Nat) (source_node : Nat)
  deriving DecidableEq

/-- `Id::new`: classify a raw identifier value, masked to 29 bits
(`embedded_can::ExtendedId::MAX.as_raw() = 0x1FFFFFFF`).  The `as u8` /
`as u16` casts of the source appear as the corresponding masks. -/
def Id.new (raw : Nat) : Id :=
  let raw := raw &&& 0x1FFFFFFF
  let priority := (raw >>> 24) &&& 0xFF
  let source_node := raw &&& 0x7F
  let service_not_message := (raw &&& 1 <<< 7) != 0
  if service_not_message then
    .Service priority ((raw >>> 16) &&& 0xFF) ((raw &&& 1 <<< 15) != 0)
      ((raw >>> 8) &&& 0x7F) source_node
  else if source_node == 0 then
    .Anonymous priority ((raw >>> 10) &&& 0x3FFF) ((raw >>> 8) &&& 0x3)
  else
    .Message priority ((raw >>> 8) &&& 0xFFFF) source_node

/-- `Id::message`: validated constructor for a message identifier. -/
def Id.message (source_node : Nat) (type_id : Nat) (priority : Nat) :
    Option Id :=
  if 0x1F < priority then none
  else if source_node = 0 ∨ 0x7F < source_node then none
  else some (.Message priority type_id source_node)

/-- `Id::anonymous`: validated constructor for an anonymous identifier. -/
def Id.anonymous (type_id : Nat) (discriminator : Nat) (priority : Nat) :
    Option Id :=
  if 0x1F < priority then none
  else if 0x3FFF < discriminator then none
  else
    let type_id := type_id &&& 0x3
    some (.Anonymous priority discriminator type_id)

/-- `Id::service`: validated constructor for a service identifier. -/
def Id.service (source_node : Nat) (destination_node : Nat)
    (service_type : Nat) (request : Bool) (priority : Nat) : Option Id :=
  if 0x1F < priority then none
  else if 0x7F < source_node ∨ 0x7F < destination_node then none
  else some (.Service priority service_type request destination_node
    source_node)

/-- `Id::as_raw`: encode an identifier back to its raw value; each
`raw |=` of the source is one `|||` term, in source order. -/
def Id.as_raw : Id → Nat
  | .Message priority type_id source_node =>
      (priority &&& 0x1F) <<< 24 ||| type_id <<< 8 ||| (source_node &&& 0x7F)
  | .Anonymous priority discriminator type_id =>
      (priority &&& 0x1F) <<< 24 ||| (discriminator &&& 0x3FFF) <<< 10 |||
        (type_id &&& 0x3) <<< 8
  | .Service priority service_type request destination_node source_node =>
      (priority &&& 0x1F) <<< 24 ||| service_type <<< 16 |||
        request.toNat <<< 15 ||| (destination_node &&& 0x7F) <<< 8 |||
        1 <<< 7 ||| (source_node &&& 0x7F)

/-- `Id::priority`: uniform priority accessor. -/
def Id.priority : Id → Nat
  | .Message priority _ _ => priority
  | .Anonymous priority _ _ => priority
  | .Service priority _ _ _ _ => priority

/-- The set of bit positions a variant's layout defines, per the spec's
bit-layout table (§3): Message uses bits 28–24, 23–8 and 6–0; Anonymous
uses bits 28–24, 23–10 and 9–8; Service uses all 29 bits. -/
def layoutMask : Id → Nat
  | .Message _ _ _ => 0x1FFFFF7F
  | .Anonymous _ _ _ => 0x1FFFFF00
  | .Service _ _ _ _ _ => 0x1FFFFFFF

/-! ## Transfer reassembler (src/transfer.rs) -/

/-- Transfer error: `enum Error` from src/transfer.rs. -/
inductive Error where
  | DataLength
  | BufferTooSmall
  | FrameOrder
  | Crc
  | IdMismatch
  | Toggle
  deriving DecidableEq

/-- `managed::ManagedSlice<u8>`: either an owned growable vector or a
caller-supplied fixed-size mutable slice. -/
inductive ManagedSlice where
  | Owned (vec : List Nat)
  | Borrowed (slice : List Nat)
  deriving DecidableEq

/-- The byte sequence a `ManagedSlice` dereferences to. -/
def ManagedSlice.list : ManagedSlice → List Nat
  | .Owned vec => vec
  | .Borrowed slice => slice

/-- Newtype for interpreting the tail byte (`struct Tail`). -/
structure Tail where
  val : Nat
  deriving DecidableEq

/-- Tail bit 7: start-of-transfer flag. -/
def Tail.start (t : Tail) : Bool := (t.val &&& 1 <<< 7) != 0

/-- Tail bit 6: end-of-transfer flag (`end` is reserved in Lean). -/
def Tail.end' (t : Tail) : Bool := (t.val &&& 1 <<< 6) != 0

/-- Tail bit 5: toggle parity bit. -/
def Tail.toggle (t : Tail) : Bool := (t.val &&& 1 <<< 5) != 0

/-- Tail bits 4–0: 5-bit transfer id. -/
def Tail.transfer_id (t : Tail) : Nat := t.val &&& 0x1F

/-- `struct Transfer`. -/
structure Transfer where
  storage : ManagedSlice
  length : Nat
  transfer_id : Nat
  toggle : Bool
  deriving DecidableEq

/-- `Transfer::new`: create an empty transfer; an owned vector is
cleared, a borrowed slice keeps its elements. -/
def Transfer.new (storage : ManagedSlice) : Transfer :=
  { storage :=
      match storage with
      | .Owned _ => .Owned []
      | s => s
    length := 0
    transfer_id := 0
    toggle := false }

/-- Rust slice indexing `&l[a..b]`: `none` models the panic raised when
the range is invalid (`a > b` or `b > l.len()`). -/
def sliceIdx (l : List Nat) (a b : Nat) : Option (List Nat) :=
  if a ≤ b ∧ b ≤ l.length then some ((l.drop a).take (b - a)) else none

/-- The transfer-id/toggle section of `add_frame` (the
`if tail.start() { .. } else { .. }` block of the source): either an
early error return or the transfer state after the section. -/
def Transfer.checkTail (self : Transfer) (tail : Tail) :
    Except Error Transfer :=
  if tail.start then
    .ok { self with
      transfer_id := tail.transfer_id
      toggle := tail.toggle }
  else if self.length == 0 && tail.end' then
    .error .FrameOrder
  else if self.transfer_id != tail.transfer_id then
    .error .IdMismatch
  else if self.toggle == tail.toggle then
    .error .Toggle
  else
    .ok { self with toggle := tail.toggle }

/-- The storage-append section of `add_frame` (the
`match &mut self.storage` block of the source together with
`self.length += inner_data.len()`): either the `BufferTooSmall` early
return or the transfer state with the payload written. -/
def Transfer.writeStorage (self : Transfer) (inner_data : List Nat) :
    Except Error Transfer :=
  match self.storage with
  | .Owned vec =>
      .ok { self with
        storage := .Owned (vec ++ inner_data)
        length := self.length + inner_data.length }
  | .Borrowed slice =>
      if self.length + inner_data.length > slice.length then
        .error .BufferTooSmall
      else
        .ok { self with
          storage := .Borrowed (slice.take self.length ++ inner_data ++
            slice.drop (self.length + inner_data.length))
          length := self.length + inner_data.length }

/-- `Transfer::add_frame`.  The outer `Option` models panics (`none`
means the Rust code aborts the process); `some (r, t)` is the returned
`Result` together with the transfer state after the call. -/
def Transfer.add_frame (self : Transfer) (data : List Nat) :
    Option (Except Error (Option (List Nat)) × Transfer) :=
  if data.length > 8 then
    some (.error .DataLength, self)
  else
    match data.getLast? with
    | none => some (.error .DataLength, self)
    | some d =>
      let tail : Tail := ⟨d⟩
      if tail.start && self.length != 0 then
        some (.error .FrameOrder, self)
      else
        match self.checkTail tail with
        | .error e => some (.error e, self)
        | .ok self1 =>
          match
            (if tail.start && !tail.end' then
              sliceIdx data 2 (data.length - 1)
            else
              sliceIdx data 0 (data.length - 1)) with
          | none => none
          | some inner_data =>
            match self1.writeStorage inner_data with
            | .error e => some (.error e, self1)
            | .ok self2 =>
              if tail.end' then
                match sliceIdx self2.storage.list 0 self2.length with
                | none => none
                | some payload => some (.ok (some payload), self2)
              else
                some (.ok none, self2)

/-! ## Arithmetic helper lemmas for bit operations -/

/-- ANDing with a contiguous run of `m` one bits starting at bit `k`
extracts the field `x / 2^k % 2^m`, left in place at bit `k`. -/
theorem and_mask_shift (x k m : Nat) :
    x &&& (2 ^ m - 1) <<< k = x / 2 ^ k % 2 ^ m * 2 ^ k := by
  apply Nat.eq_of_testBit_eq
  intro i
  rw [Nat.testBit_and, Nat.testBit_shiftLeft, Nat.testBit_two_pow_sub_one,
    Nat.mul_comm, Nat.testBit_mul_pow_two]
  rcases Nat.lt_or_ge i k with h | h
  · simp [Nat.not_le.mpr h]
  · have hik : i = k + (i - k) := by omega
    simp only [ge_iff_le, h, Nat.testBit_mod_two_pow]
    rw [← Nat.shiftRight_eq_div_pow, Nat.testBit_shiftRight, ← hik]
    simp [Bool.and_comm, Bool.and_left_comm, Bool.and_assoc]

/-- ORing is addition when the low `k` bits of `a` are clear and `b`
fits in `k` bits. -/
theorem or_eq_add (k : Nat) {a b : Nat} (ha : 2 ^ k ∣ a) (hb : b < 2 ^ k) :
    a ||| b = a + b := by
  obtain ⟨c, rfl⟩ := ha
  exact (Nat.mul_add_lt_is_or hb c).symm

theorem and_31 (x : Nat) : x &&& 31 = x % 32 := by
  have h := Nat.and_pow_two_sub_one_eq_mod x 5
  norm_num at h
  exact h

theorem and_3 (x : Nat) : x &&& 3 = x % 4 := by
  have h := Nat.and_pow_two_sub_one_eq_mod x 2
  norm_num at h
  exact h

theorem and_127 (x : Nat) : x &&& 127 = x % 128 := by
  have h := Nat.and_pow_two_sub_one_eq_mod x 7
  norm_num at h
  exact h

theorem and_255 (x : Nat) : x &&& 255 = x % 256 := by
  have h := Nat.and_pow_two_sub_one_eq_mod x 8
  norm_num at h
  exact h

theorem and_16383 (x : Nat) : x &&& 16383 = x % 16384 := by
  have h := Nat.and_pow_two_sub_one_eq_mod x 14
  norm_num at h
  exact h

theorem and_65535 (x : Nat) : x &&& 65535 = x % 65536 := by
  have h := Nat.and_pow_two_sub_one_eq_mod x 16
  norm_num at h
  exact h

theorem and_mask29 (x : Nat) : x &&& 0x1FFFFFFF = x % 0x20000000 := by
  have h := Nat.and_pow_two_sub_one_eq_mod x 29
  norm_num at h
  exact h

theorem and_bit7 (x : Nat) : x &&& 1 <<< 7 = x / 128 % 2 * 128 := by
  have h := and_mask_shift x 7 1
  norm_num at h
  exact h

theorem and_bit15 (x : Nat) : x &&& 1 <<< 15 = x / 32768 % 2 * 32768 := by
  have h := and_mask_shift x 15 1
  norm_num at h
  exact h

/-! ## Closed arithmetic forms for the codec -/

theorem as_raw_Message (p t sn : Nat) (ht : t < 65536) :
    (Id.Message p t sn).as_raw = p % 32 * 2 ^ 24 + t * 2 ^ 8 + sn % 128 := by
  show (p &&& 0x1F) <<< 24 ||| t <<< 8 ||| (sn &&& 0x7F) = _
  rw [and_31, and_127, Nat.shiftLeft_eq, Nat.shiftLeft_eq]
  have h1 : p % 32 * 2 ^ 24 ||| t * 2 ^ 8 = p % 32 * 2 ^ 24 + t * 2 ^ 8 :=
    or_eq_add 24 ⟨p % 32, by ring⟩ (by omega)
  rw [h1]
  exact or_eq_add 8 ⟨p % 32 * 65536 + t, by ring⟩ (by omega)

theorem as_raw_Anonymous (p d t : Nat) :
    (Id.Anonymous p d t).as_raw =
      p % 32 * 2 ^ 24 + d % 16384 * 2 ^ 10 + t % 4 * 2 ^ 8 := by
  show (p &&& 0x1F) <<< 24 ||| (d &&& 0x3FFF) <<< 10 ||| (t &&& 0x3) <<< 8 = _
  rw [and_31, and_16383, and_3, Nat.shiftLeft_eq, Nat.shiftLeft_eq,
    Nat.shiftLeft_eq]
  have h1 : p % 32 * 2 ^ 24 ||| d % 16384 * 2 ^ 10 =
      p % 32 * 2 ^ 24 + d % 16384 * 2 ^ 10 :=
    or_eq_add 24 ⟨p % 32, by ring⟩ (by omega)
  rw [h1]
  exact or_eq_add 10 ⟨p % 32 * 16384 + d % 16384, by ring⟩ (by omega)

theorem as_raw_Service (p st : Nat) (req : Bool) (dn sn : Nat)
    (hst : st < 256) :
    (Id.Service p st req dn sn).as_raw =
      p % 32 * 2 ^ 24 + st * 2 ^ 16 + req.toNat * 2 ^ 15 +
        dn % 128 * 2 ^ 8 + 2 ^ 7 + sn % 128 := by
  show (p &&& 0x1F) <<< 24 ||| st <<< 16 ||| req.toNat <<< 15 |||
      (dn &&& 0x7F) <<< 8 ||| 1 <<< 7 ||| (sn &&& 0x7F) = _
  have hreq : req.toNat < 2 := by cases req <;> simp
  rw [and_31, and_127, and_127, Nat.shiftLeft_eq, Nat.shiftLeft_eq,
    Nat.shiftLeft_eq, Nat.shiftLeft_eq, Nat.shiftLeft_eq]
  have h1 : p % 32 * 2 ^ 24 ||| st * 2 ^ 16 =
      p % 32 * 2 ^ 24 + st * 2 ^ 16 :=
    or_eq_add 24 ⟨p % 32, by ring⟩ (by omega)
  rw [h1]
  have h2 : p % 32 * 2 ^ 24 + st * 2 ^ 16 ||| req.toNat * 2 ^ 15 =
      p % 32 * 2 ^ 24 + st * 2 ^ 16 + req.toNat * 2 ^ 15 :=
    or_eq_add 16 ⟨p % 32 * 256 + st, by ring⟩ (by omega)
  rw [h2]
  have h3 : p % 32 * 2 ^ 24 + st * 2 ^ 16 + req.toNat * 2 ^ 15 |||
      dn % 128 * 2 ^ 8 =
      p % 32 * 2 ^ 24 + st * 2 ^ 16 + req.toNat * 2 ^ 15 +
        dn % 128 * 2 ^ 8 :=
    or_eq_add 15 ⟨p % 32 * 512 + st * 2 + req.toNat, by ring⟩ (by omega)
  rw [h3]
  have h4 : p % 32 * 2 ^ 24 + st * 2 ^ 16 + req.toNat * 2 ^ 15 +
      dn % 128 * 2 ^ 8 ||| 1 * 2 ^ 7 =
      p % 32 * 2 ^ 24 + st * 2 ^ 16 + req.toNat * 2 ^ 15 +
        dn % 128 * 2 ^ 8 + 1 * 2 ^ 7 :=
    or_eq_add 8
      ⟨p % 32 * 65536 + st * 256 + req.toNat * 128 + dn % 128, by ring⟩
      (by omega)
  rw [h4]
  have h5 : p % 32 * 2 ^ 24 + st * 2 ^ 16 + req.toNat * 2 ^ 15 +
      dn % 128 * 2 ^ 8 + 1 * 2 ^ 7 ||| sn % 128 =
      p % 32 * 2 ^ 24 + st * 2 ^ 16 + req.toNat * 2 ^ 15 +
        dn % 128 * 2 ^ 8 + 1 * 2 ^ 7 + sn % 128 :=
    or_eq_add 7
      ⟨p % 32 * 131072 + st * 512 + req.toNat * 256 + dn % 128 * 2 + 1,
        by ring⟩
      (by omega)
  rw [h5]
  omega

/-- AND with the Message layout mask: bits 28–8 and 6–0 (bit 7 dropped). -/
theorem and_mask_msg (x : Nat) :
    x &&& 0x1FFFFF7F = x / 2 ^ 8 % 2 ^ 21 * 2 ^ 8 + x % 2 ^ 7 := by
  have hsplit : (0x1FFFFF7F : Nat) = (2 ^ 21 - 1) <<< 8 ||| (2 ^ 7 - 1) := by
    decide
  rw [hsplit, Nat.and_or_distrib_left, and_mask_shift,
    Nat.and_pow_two_sub_one_eq_mod]
  exact or_eq_add 8 ⟨x / 2 ^ 8 % 2 ^ 21, by ring⟩ (by omega)

/-- AND with the Anonymous layout mask: bits 28–8. -/
theorem and_mask_anon (x : Nat) :
    x &&& 0x1FFFFF00 = x / 2 ^ 8 % 2 ^ 21 * 2 ^ 8 := by
  have hsplit : (0x1FFFFF00 : Nat) = (2 ^ 21 - 1) <<< 8 := by decide
  rw [hsplit, and_mask_shift]

/-- C1: for every raw value, encoding the classified identifier
(`(Id.new raw).as_raw`) reproduces exactly the bits of the selected
variant's layout from the 29-bit-masked input, and every bit outside the
variant's bit positions is zero in the encoded result (the encoded value
is unchanged by ANDing with the layout mask). -/
theorem id_new_as_raw_layout (raw : Nat) :
    (Id.new raw).as_raw = raw &&& 0x1FFFFFFF &&& layoutMask (Id.new raw) ∧
    (Id.new raw).as_raw &&& layoutMask (Id.new raw) = (Id.new raw).as_raw := by
  have key : (Id.new raw).as_raw =
      raw &&& 0x1FFFFFFF &&& layoutMask (Id.new raw) := by
    simp only [Id.new, and_mask29, Nat.shiftRight_eq_div_pow, and_255,
      and_127, and_bit7, and_bit15, and_65535, and_16383, and_3]
    by_cases h7 : raw % 0x20000000 / 128 % 2 = 1
    · simp [h7, layoutMask]
      rw [as_raw_Service _ _ _ _ _ (by omega), and_mask29]
      by_cases h15 : raw % 536870912 / 32768 % 2 = 1
      · simp [h15]
        omega
      · have h15' : raw % 536870912 / 32768 % 2 = 0 := by omega
        simp [h15']
        omega
    · have h7' : raw % 536870912 / 128 % 2 = 0 := by omega
      by_cases hsn : raw % 536870912 % 128 = 0
      · simp [h7', hsn, layoutMask]
        rw [as_raw_Anonymous, and_mask_anon]
        omega
      · simp [h7', hsn, layoutMask]
        rw [as_raw_Message _ _ _ (by omega), and_mask_msg]
        omega
  exact ⟨key, by rw [key, Nat.and_assoc, Nat.and_self]⟩

/-- C3 counterexample: `Id.service` accepts source node 0 (it only checks
the upper bound 0x7F), contradicting the claim that node id 0 is rejected
by the Service constructor. -/
theorem service_source_zero_accepted :
    Id.service 0 1 1 false 1 = some (.Service 1 1 false 1 0) := rfl

/-- C3 (amended): the validated constructors return `none` exactly when a
field is out of range — priority > 31 for all three; source node 0 or
> 127 for Message; discriminator > 16383 for Anonymous; source or
destination node > 127 (0 permitted) for Service — and otherwise return
an identifier with the fields exactly as given, except that the
Anonymous type id is truncated to 2 bits by masking. -/
theorem validated_constructors_spec (p t s d dst st : Nat) (req : Bool) :
    Id.message s t p =
      (if 0x1F < p ∨ s = 0 ∨ 0x7F < s then none
       else some (.Message p t s)) ∧
    Id.anonymous t d p =
      (if 0x1F < p ∨ 0x3FFF < d then none
       else some (.Anonymous p d (t &&& 0x3))) ∧
    Id.service s dst st req p =
      (if 0x1F < p ∨ 0x7F < s ∨ 0x7F < dst then none
       else some (.Service p st req dst s)) := by
  refine ⟨?_, ?_, ?_⟩
  · unfold Id.message
    split_ifs <;> first | rfl | (exfalso; tauto)
  · unfold Id.anonymous
    split_ifs <;> first | rfl | (exfalso; tauto)
  · unfold Id.service
    split_ifs <;> first | rfl | (exfalso; tauto)

/-! ## Helper lemmas about the reassembler pieces -/

theorem checkTail_error_cases (self : Transfer) (tail : Tail) (e : Error)
    (h : self.checkTail tail = .error e) :
    e = .FrameOrder ∨ e = .IdMismatch ∨ e = .Toggle := by
  unfold Transfer.checkTail at h
  split_ifs at h
  all_goals simp_all

theorem writeStorage_error_cases (self : Transfer) (l : List Nat) (e : Error)
    (h : self.writeStorage l = .error e) : e = .BufferTooSmall := by
  unfold Transfer.writeStorage at h
  split at h
  · simp_all
  · split_ifs at h
    all_goals simp_all

theorem checkTail_start_eq (self : Transfer) (tail : Tail)
    (hs : tail.start = true) :
    self.checkTail tail = .ok { self with
      transfer_id := tail.transfer_id
      toggle := tail.toggle } := by
  unfold Transfer.checkTail
  simp [hs]

theorem checkTail_nonstart (self : Transfer) (tail : Tail)
    (hs : tail.start = false) :
    self.checkTail tail =
      (if self.length = 0 ∧ tail.end' = true then .error .FrameOrder
       else if self.transfer_id ≠ tail.transfer_id then .error .IdMismatch
       else if self.toggle = tail.toggle then .error .Toggle
       else .ok { self with toggle := tail.toggle }) := by
  unfold Transfer.checkTail
  simp only [hs, Bool.false_eq_true, if_false, Bool.and_eq_true,
    beq_iff_eq, bne_iff_ne, ne_eq]

theorem checkTail_ok_state (self : Transfer) (tail : Tail) (s1 : Transfer)
    (h : self.checkTail tail = .ok s1) :
    s1.storage = self.storage ∧ s1.length = self.length := by
  unfold Transfer.checkTail at h
  split_ifs at h
  all_goals simp_all
  all_goals rw [← h]
  all_goals exact ⟨rfl, rfl⟩

theorem checkTail_nonstart_ok (self : Transfer) (tail : Tail) (s1 : Transfer)
    (hs : tail.start = false) (h : self.checkTail tail = .ok s1) :
    s1 = { self with toggle := tail.toggle } ∧
      tail.transfer_id = self.transfer_id ∧ tail.toggle ≠ self.toggle ∧
      ¬(self.length = 0 ∧ tail.end' = true) := by
  rw [checkTail_nonstart self tail hs] at h
  split_ifs at h with h1 h2 h3
  injection h with h4
  subst h4
  refine ⟨rfl, by omega, fun hh => h3 hh.symm, h1⟩

theorem writeStorage_owned (self : Transfer) (vec l : List Nat)
    (h : self.storage = .Owned vec) :
    self.writeStorage l = .ok { self with
      storage := .Owned (vec ++ l)
      length := self.length + l.length } := by
  unfold Transfer.writeStorage
  split
  · simp_all
  · simp_all

theorem writeStorage_borrowed (self : Transfer) (sl l : List Nat)
    (h : self.storage = .Borrowed sl) :
    self.writeStorage l =
      (if self.length + l.length > sl.length then .error .BufferTooSmall
       else .ok { self with
         storage := .Borrowed (sl.take self.length ++ l ++
           sl.drop (self.length + l.length))
         length := self.length + l.length }) := by
  unfold Transfer.writeStorage
  split
  · simp_all
  · simp_all

theorem writeStorage_ok_state (self : Transfer) (l : List Nat)
    (s2 : Transfer) (h : self.writeStorage l = .ok s2) :
    s2.transfer_id = self.transfer_id ∧ s2.toggle = self.toggle ∧
      s2.length = self.length + l.length := by
  unfold Transfer.writeStorage at h
  split at h
  all_goals try split_ifs at h
  all_goals injection h with h2
  all_goals rw [← h2]
  all_goals exact ⟨rfl, rfl, rfl⟩

theorem sliceIdx_eq_some (l res : List Nat) (a b : Nat)
    (h : sliceIdx l a b = some res) :
    a ≤ b ∧ b ≤ l.length ∧ res = (l.drop a).take (b - a) := by
  unfold sliceIdx at h
  split_ifs at h
  all_goals simp_all

theorem sliceIdx_pos (l : List Nat) (a b : Nat) (h1 : a ≤ b)
    (h2 : b ≤ l.length) :
    sliceIdx l a b = some ((l.drop a).take (b - a)) := by
  unfold sliceIdx
  simp [h1, h2]

theorem getLast?_getD_of_pos (data : List Nat) (h : 0 < data.length) :
    data.getLast? = some (data.getLast?.getD 0) := by
  cases hd : data.getLast? with
  | none =>
      rw [List.getLast?_eq_none_iff] at hd
      subst hd
      simp at h
  | some d => rfl


theorem add_frame_error_cases (self : Transfer) (data : List Nat)
    (e : Error) (s : Transfer)
    (h : Transfer.add_frame self data = some (.error e, s)) :
    e = .DataLength ∨ e = .FrameOrder ∨ e = .IdMismatch ∨ e = .Toggle ∨
      e = .BufferTooSmall := by
  unfold Transfer.add_frame at h
  repeat' (first | split at h | simp_all)
  all_goals
    first
      | (have hcc := checkTail_error_cases _ _ _ (by assumption); tauto)
      | (have hww := writeStorage_error_cases _ _ _ (by assumption); tauto)

/-- C10: for every transfer state and every input frame, `add_frame`
never returns the `Crc` error: that variant of the error taxonomy is
currently never produced. -/
theorem add_frame_never_crc (self : Transfer) (data : List Nat) :
    match Transfer.add_frame self data with
    | some (.error .Crc, _) => False
    | _ => True := by
  cases hres : Transfer.add_frame self data with
  | none => trivial
  | some rs =>
    obtain ⟨r, s⟩ := rs
    cases r with
    | ok v => trivial
    | error e =>
      have h5 := add_frame_error_cases self data e s hres
      rcases h5 with h | h | h | h | h
      all_goals subst h
      all_goals trivial

/-- C8: `add_frame` fails with `DataLength` exactly when the input
frame's byte length is 0 or greater than 8. -/
theorem add_frame_dataLength_iff (self : Transfer) (data : List Nat) :
    (∃ s, Transfer.add_frame self data = some (.error .DataLength, s)) ↔
      data.length = 0 ∨ 8 < data.length := by
  constructor
  · rintro ⟨s, h⟩
    unfold Transfer.add_frame at h
    repeat' (first | split at h | simp_all)
    all_goals
      first
        | omega
        | (have hcc := checkTail_error_cases _ _ _ (by assumption); simp_all)
        | (have hww := writeStorage_error_cases _ _ _ (by assumption); simp_all)
  · intro h
    rcases h with h | h
    · have hnil : data = [] := List.length_eq_zero.mp h
      subst hnil
      exact ⟨self, rfl⟩
    · refine ⟨self, ?_⟩
      unfold Transfer.add_frame
      simp [h]

/-- C9: whenever `add_frame` returns an error other than
`BufferTooSmall`, the entire transfer state (storage, length,
transfer id and toggle) is exactly as it was before the call. -/
theorem add_frame_error_preserves_state (self : Transfer) (data : List Nat)
    (e : Error) (s : Transfer)
    (h : Transfer.add_frame self data = some (.error e, s))
    (hne : e ≠ .BufferTooSmall) : s = self := by
  unfold Transfer.add_frame at h
  repeat' (first | split at h | simp_all)
  all_goals
    first
      | (have hww := writeStorage_error_cases _ _ _ (by assumption); simp_all)
      | simp_all

/-- C2 (code bug): feeding a fresh transfer a 1-byte frame whose tail
has start set and end clear reaches the slice `&data[2..data.len()-1]`
with an invalid range (`2..0`), so the Rust code panics instead of
returning an error value; the model returns `none` (abort). -/
theorem add_frame_panic_short_start_frame :
    Transfer.add_frame (Transfer.new (.Owned [])) [0x80] = none := rfl


theorem length_pos_of_getLast?_some {data : List Nat} {d : Nat}
    (h : data.getLast? = some d) : 0 < data.length := by
  cases data
  · simp at h
  · simp

theorem add_frame_nonstart_spec (self : Transfer) (data : List Nat) (d : Nat)
    (hd : data.getLast? = some d) (h8 : data.length ≤ 8)
    (hs : Tail.start ⟨d⟩ = false)
    (hfe : ¬(self.length = 0 ∧ Tail.end' ⟨d⟩ = true)) :
    (Tail.transfer_id ⟨d⟩ ≠ self.transfer_id →
      Transfer.add_frame self data = some (.error .IdMismatch, self)) ∧
    (Tail.transfer_id ⟨d⟩ = self.transfer_id →
      Tail.toggle ⟨d⟩ = self.toggle →
      Transfer.add_frame self data = some (.error .Toggle, self)) := by
  have hc : (Tail.start ⟨d⟩ && self.length != 0) = false := by simp [hs]
  constructor
  · intro hmis
    unfold Transfer.add_frame
    rw [if_neg (by omega : ¬ data.length > 8)]
    simp only [hd, hc, Bool.false_eq_true, if_false]
    rw [checkTail_nonstart _ _ hs, if_neg hfe,
      if_pos (show self.transfer_id ≠ Tail.transfer_id ⟨d⟩ from
        fun hh => hmis hh.symm)]
  · intro hid htg
    unfold Transfer.add_frame
    rw [if_neg (by omega : ¬ data.length > 8)]
    simp only [hd, hc, Bool.false_eq_true, if_false]
    rw [checkTail_nonstart _ _ hs, if_neg hfe,
      if_neg (show ¬ self.transfer_id ≠ Tail.transfer_id ⟨d⟩ from
        fun hh => hh hid.symm),
      if_pos htg.symm]

theorem add_frame_frameOrder_iff_aux (self : Transfer) (data : List Nat)
    (d : Nat) (hd : data.getLast? = some d) (h8 : data.length ≤ 8) :
    (∃ s, Transfer.add_frame self data = some (.error .FrameOrder, s)) ↔
      ((Tail.start ⟨d⟩ = true ∧ self.length ≠ 0) ∨
       (Tail.start ⟨d⟩ = false ∧ Tail.end' ⟨d⟩ = true ∧
        self.length = 0)) := by
  constructor
  · rintro ⟨s, h⟩
    unfold Transfer.add_frame at h
    rw [if_neg (by omega : ¬ data.length > 8)] at h
    simp only [hd] at h
    by_cases hc : (Tail.start ⟨d⟩ && self.length != 0) = true
    · left
      rw [Bool.and_eq_true, bne_iff_ne] at hc
      exact hc
    · rw [Bool.not_eq_true] at hc
      simp only [hc, Bool.false_eq_true, if_false] at h
      rcases Bool.eq_false_or_eq_true (Tail.start ⟨d⟩) with hs | hs
      · have hlen : self.length = 0 := by
          rw [hs] at hc
          simpa using hc
        exfalso
        rw [checkTail_start_eq _ _ hs] at h
        repeat' (first | split at h | simp_all)
        all_goals (have hws := writeStorage_error_cases _ _ _ (by assumption); simp_all)
      · rw [checkTail_nonstart _ _ hs] at h
        by_cases h1 : self.length = 0 ∧ Tail.end' ⟨d⟩ = true
        · right
          exact ⟨hs, h1.2, h1.1⟩
        · rw [if_neg h1] at h
          by_cases h2 : self.transfer_id ≠ Tail.transfer_id ⟨d⟩
          · rw [if_pos h2] at h
            exfalso
            simp at h
          · rw [if_neg h2] at h
            by_cases h3 : self.toggle = Tail.toggle ⟨d⟩
            · rw [if_pos h3] at h
              exfalso
              simp at h
            · rw [if_neg h3] at h
              exfalso
              repeat' (first | split at h | simp_all)
              all_goals (have hws := writeStorage_error_cases _ _ _ (by assumption); simp_all)
  · rintro (⟨h1, h2⟩ | ⟨h1, h2, h3⟩)
    · refine ⟨self, ?_⟩
      unfold Transfer.add_frame
      rw [if_neg (by omega : ¬ data.length > 8)]
      simp only [hd]
      have hc : (Tail.start ⟨d⟩ && self.length != 0) = true := by
        rw [Bool.and_eq_true, bne_iff_ne]
        exact ⟨h1, h2⟩
      simp [hc]
    · refine ⟨self, ?_⟩
      unfold Transfer.add_frame
      rw [if_neg (by omega : ¬ data.length > 8)]
      simp only [hd]
      have hc : (Tail.start ⟨d⟩ && self.length != 0) = false := by
        simp [h1]
      simp only [hc, Bool.false_eq_true, if_false]
      rw [checkTail_nonstart _ _ h1, if_pos ⟨h3, h2⟩]


/-- C5: `add_frame` fails with `FrameOrder` exactly when the frame
passes the length check and either its tail has start set with
`length ≠ 0`, or start clear, end set and `length = 0`; and a first
frame (`length = 0`) with neither start nor end set falls through to
the IdMismatch/Toggle checks against the initial state
(`transfer_id = 0`, `toggle = false`). -/
theorem add_frame_frameOrder_spec (self : Transfer) (data : List Nat) :
    ((∃ s, Transfer.add_frame self data = some (.error .FrameOrder, s)) ↔
      (0 < data.length ∧ data.length ≤ 8 ∧
        ((Tail.start ⟨data.getLast?.getD 0⟩ = true ∧ self.length ≠ 0) ∨
         (Tail.start ⟨data.getLast?.getD 0⟩ = false ∧
          Tail.end' ⟨data.getLast?.getD 0⟩ = true ∧ self.length = 0)))) ∧
    (self.length = 0 → self.transfer_id = 0 → self.toggle = false →
      0 < data.length → data.length ≤ 8 →
      Tail.start ⟨data.getLast?.getD 0⟩ = false →
      Tail.end' ⟨data.getLast?.getD 0⟩ = false →
      (Tail.transfer_id ⟨data.getLast?.getD 0⟩ ≠ 0 →
        Transfer.add_frame self data = some (.error .IdMismatch, self)) ∧
      (Tail.transfer_id ⟨data.getLast?.getD 0⟩ = 0 →
        Tail.toggle ⟨data.getLast?.getD 0⟩ = false →
        Transfer.add_frame self data = some (.error .Toggle, self))) := by
  constructor
  · by_cases hpos : 0 < data.length
    · by_cases h8 : data.length ≤ 8
      · have hd := getLast?_getD_of_pos data hpos
        rw [add_frame_frameOrder_iff_aux self data _ hd h8]
        exact ⟨fun hh => ⟨hpos, h8, hh⟩, fun hh => hh.2.2⟩
      · constructor
        · rintro ⟨s, h⟩
          unfold Transfer.add_frame at h
          rw [if_pos (by omega)] at h
          simp at h
        · rintro ⟨_, hh8, _⟩
          omega
    · have hdata : data = [] := by
        cases data
        · rfl
        · simp at hpos
      subst hdata
      constructor
      · rintro ⟨s, h⟩
        simp only [show Transfer.add_frame self [] =
          some (.error .DataLength, self) from rfl] at h
        simp at h
      · rintro ⟨hh, _⟩
        simp at hh
  · intro hlen htid htg hpos h8 hs he
    have hd := getLast?_getD_of_pos data hpos
    have hspec := add_frame_nonstart_spec self data _ hd h8 hs
      (by simp [he])
    constructor
    · intro hnz
      exact hspec.1 (by rw [htid]; exact hnz)
    · intro hz htgl
      exact hspec.2 (by rw [htid]; exact hz) (by rw [htg]; exact htgl)


/-- C6: for every non-start frame that is not rejected by the length
or first-frame-end checks, `add_frame` fails with `IdMismatch` when the
tail's transfer id differs from the committed one (taking precedence
over the toggle check); otherwise it fails with `Toggle` when the
tail's toggle equals the stored toggle; otherwise the call completes
and the stored toggle becomes the tail's toggle. -/
theorem add_frame_continuation_checks (self : Transfer) (data : List Nat)
    (d : Nat) (hd : data.getLast? = some d) (h8 : data.length ≤ 8)
    (hs : Tail.start ⟨d⟩ = false)
    (hfe : ¬(self.length = 0 ∧ Tail.end' ⟨d⟩ = true))
    (hwf : ∀ vec, self.storage = .Owned vec → self.length ≤ vec.length) :
    (Tail.transfer_id ⟨d⟩ ≠ self.transfer_id →
      Transfer.add_frame self data = some (.error .IdMismatch, self)) ∧
    (Tail.transfer_id ⟨d⟩ = self.transfer_id →
      Tail.toggle ⟨d⟩ = self.toggle →
      Transfer.add_frame self data = some (.error .Toggle, self)) ∧
    (Tail.transfer_id ⟨d⟩ = self.transfer_id →
      Tail.toggle ⟨d⟩ ≠ self.toggle →
      ∃ r s, Transfer.add_frame self data = some (r, s) ∧
        s.toggle = Tail.toggle ⟨d⟩) := by
  have hbase := add_frame_nonstart_spec self data d hd h8 hs hfe
  refine ⟨hbase.1, hbase.2, ?_⟩
  intro hid htg
  have hcT : self.checkTail ⟨d⟩ =
      .ok { self with toggle := Tail.toggle ⟨d⟩ } := by
    rw [checkTail_nonstart _ _ hs, if_neg hfe,
      if_neg (show ¬ self.transfer_id ≠ Tail.transfer_id ⟨d⟩ from
        fun hh => hh hid.symm),
      if_neg (show ¬ self.toggle = Tail.toggle ⟨d⟩ from
        fun hh => htg hh.symm)]
  have hc1 : (Tail.start ⟨d⟩ && self.length != 0) = false := by simp [hs]
  have hc2 : (Tail.start ⟨d⟩ && !Tail.end' ⟨d⟩) = false := by simp [hs]
  have hinner := sliceIdx_pos data 0 (data.length - 1) (by omega) (by omega)
  have hpos := length_pos_of_getLast?_some hd
  have hilen : ((data.drop 0).take (data.length - 1 - 0)).length =
      data.length - 1 := by
    simp
  unfold Transfer.add_frame
  rw [if_neg (by omega : ¬ data.length > 8)]
  simp only [hd, hc1, Bool.false_eq_true, if_false, hcT, hc2, hinner]
  cases hst : self.storage with
  | Owned vec =>
    rw [writeStorage_owned _ vec _ (by simp [hst])]
    simp only []
    by_cases he : Tail.end' ⟨d⟩ = true
    · rw [if_pos he]
      have hb := hwf vec hst
      rw [sliceIdx_pos _ 0 _ (by omega) (by simp [ManagedSlice.list]; omega)]
      exact ⟨_, _, rfl, rfl⟩
    · rw [if_neg he]
      exact ⟨_, _, rfl, rfl⟩
  | Borrowed sl =>
    rw [writeStorage_borrowed _ sl _ (by simp [hst])]
    simp only []
    by_cases hov : self.length +
        ((data.drop 0).take (data.length - 1 - 0)).length > sl.length
    · rw [if_pos hov]
      exact ⟨_, _, rfl, rfl⟩
    · rw [if_neg hov]
      simp only []
      by_cases he : Tail.end' ⟨d⟩ = true
      · rw [if_pos he]
        rw [sliceIdx_pos _ 0 _ (by omega)
          (by simp [ManagedSlice.list]; omega)]
        exact ⟨_, _, rfl, rfl⟩
      · rw [if_neg he]
        exact ⟨_, _, rfl, rfl⟩


/-- C7: with borrowed (fixed) storage, `add_frame` fails with
`BufferTooSmall` exactly when `length` plus the payload length exceeds
the storage capacity, and on that failure the storage contents and
`length` are unchanged; with owned (growable) storage `BufferTooSmall`
is never returned. -/
theorem add_frame_bufferTooSmall_spec :
    (∀ (self : Transfer) (data : List Nat) (d : Nat) (sl : List Nat),
      self.storage = .Borrowed sl →
      data.getLast? = some d →
      data.length ≤ 8 →
      (Tail.start ⟨d⟩ = true → self.length = 0) →
      (Tail.start ⟨d⟩ = false →
        ¬(self.length = 0 ∧ Tail.end' ⟨d⟩ = true) ∧
        Tail.transfer_id ⟨d⟩ = self.transfer_id ∧
        Tail.toggle ⟨d⟩ ≠ self.toggle) →
      (Tail.start ⟨d⟩ = true → Tail.end' ⟨d⟩ = false → 3 ≤ data.length) →
      ((∃ s, Transfer.add_frame self data =
          some (.error .BufferTooSmall, s) ∧
          s.storage = self.storage ∧ s.length = self.length) ↔
        sl.length < self.length +
          (if Tail.start ⟨d⟩ && !Tail.end' ⟨d⟩ then data.length - 3
           else data.length - 1))) ∧
    (∀ (self : Transfer) (data : List Nat) (vec : List Nat),
      self.storage = .Owned vec →
      ∀ s, ¬ (Transfer.add_frame self data =
        some (.error .BufferTooSmall, s))) := by
  constructor
  · intro self data d sl hst hd h8 hstart hnonstart hlen3
    have hpos := length_pos_of_getLast?_some hd
    obtain ⟨self1, hcT, hs1store, hs1len⟩ :
        ∃ s1, self.checkTail ⟨d⟩ = .ok s1 ∧
          s1.storage = self.storage ∧ s1.length = self.length := by
      by_cases hsb : Tail.start ⟨d⟩ = true
      · exact ⟨_, checkTail_start_eq _ _ hsb, rfl, rfl⟩
      · have hsb' : Tail.start ⟨d⟩ = false := by
          cases hbool : Tail.start ⟨d⟩
          · rfl
          · exact absurd hbool hsb
        obtain ⟨hfe, hid, htg⟩ := hnonstart hsb'
        refine ⟨{ self with toggle := Tail.toggle ⟨d⟩ }, ?_, rfl, rfl⟩
        rw [checkTail_nonstart _ _ hsb', if_neg hfe,
          if_neg (show ¬ self.transfer_id ≠ Tail.transfer_id ⟨d⟩ from
            fun hh => hh hid.symm),
          if_neg (show ¬ self.toggle = Tail.toggle ⟨d⟩ from
            fun hh => htg hh.symm)]
    have hc1 : (Tail.start ⟨d⟩ && self.length != 0) = false := by
      by_cases hsb : Tail.start ⟨d⟩ = true
      · simp [hsb, hstart hsb]
      · have hsb' : Tail.start ⟨d⟩ = false := by
          cases hbool : Tail.start ⟨d⟩
          · rfl
          · exact absurd hbool hsb
        simp [hsb']
    unfold Transfer.add_frame
    rw [if_neg (by omega : ¬ data.length > 8)]
    simp only [hd, hc1, Bool.false_eq_true, if_false, hcT]
    by_cases hse : (Tail.start ⟨d⟩ && !Tail.end' ⟨d⟩) = true
    · have h3 : 3 ≤ data.length := by
        rw [Bool.and_eq_true, Bool.not_eq_true'] at hse
        exact hlen3 hse.1 hse.2
      rw [hse]
      simp only [if_true]
      rw [sliceIdx_pos data 2 (data.length - 1) (by omega) (by omega)]
      simp only []
      have hilen : ((data.drop 2).take (data.length - 1 - 2)).length =
          data.length - 3 := by
        simp
        omega
      rw [writeStorage_borrowed _ sl _ (by rw [hs1store, hst])]
      rw [hilen, hs1len]
      by_cases hov : self.length + (data.length - 3) > sl.length
      · rw [if_pos hov]
        simp only []
        constructor
        · intro _
          omega
        · intro _
          exact ⟨self1, rfl, hs1store, hs1len⟩
      · rw [if_neg hov]
        simp only []
        by_cases he : Tail.end' ⟨d⟩ = true
        · rw [if_pos he]
          rw [sliceIdx_pos _ 0 _ (by omega)
            (by simp [ManagedSlice.list]; omega)]
          constructor
          · rintro ⟨s, hh, _⟩
            simp at hh
          · intro hh
            omega
        · rw [if_neg he]
          constructor
          · rintro ⟨s, hh, _⟩
            simp at hh
          · intro hh
            omega
    · have hse' : (Tail.start ⟨d⟩ && !Tail.end' ⟨d⟩) = false := by
        cases hbool : (Tail.start ⟨d⟩ && !Tail.end' ⟨d⟩)
        · rfl
        · exact absurd hbool hse
      rw [hse']
      simp only [Bool.false_eq_true, if_false]
      rw [sliceIdx_pos data 0 (data.length - 1) (by omega) (by omega)]
      simp only []
      have hilen : ((data.drop 0).take (data.length - 1 - 0)).length =
          data.length - 1 := by
        simp
      rw [writeStorage_borrowed _ sl _ (by rw [hs1store, hst])]
      rw [hilen, hs1len]
      by_cases hov : self.length + (data.length - 1) > sl.length
      · rw [if_pos hov]
        simp only []
        constructor
        · intro _
          omega
        · intro _
          exact ⟨self1, rfl, hs1store, hs1len⟩
      · rw [if_neg hov]
        simp only []
        by_cases he : Tail.end' ⟨d⟩ = true
        · rw [if_pos he]
          rw [sliceIdx_pos _ 0 _ (by omega)
            (by simp [ManagedSlice.list]; omega)]
          constructor
          · rintro ⟨s, hh, _⟩
            simp at hh
          · intro hh
            omega
        · rw [if_neg he]
          constructor
          · rintro ⟨s, hh, _⟩
            simp at hh
          · intro hh
            omega
  · intro self data vec hst s h
    unfold Transfer.add_frame at h
    split at h
    · simp at h
    · split at h
      · simp at h
      · simp only [] at h
        split at h
        · simp at h
        · split at h
          next e' heqc =>
            have hcc := checkTail_error_cases _ _ _ heqc
            simp at h
            rcases hcc with hh | hh | hh
            all_goals rw [hh] at h
            all_goals simp at h
          next self1 heqc =>
            split at h
            · exact Option.noConfusion h
            next inner heqi =>
              split at h
              next e' heqw =>
                have hsto : self1.storage = .Owned vec := by
                  rw [(checkTail_ok_state _ _ _ heqc).1, hst]
                rw [writeStorage_owned _ _ _ hsto] at heqw
                exact Except.noConfusion heqw
              next self2 heqw =>
                split at h
                · split at h
                  · exact Option.noConfusion h
                  · simp at h
                · simp at h


/-- Characterization of a successful `writeStorage`: the payload is
appended at offset `length` and `length` grows by its length. -/
theorem writeStorage_ok_spec (self : Transfer) (l : List Nat) (s2 : Transfer)
    (h : self.writeStorage l = .ok s2) :
    s2.length = self.length + l.length ∧
    (match self.storage, s2.storage with
     | .Owned vec, .Owned vec2 => vec2 = vec ++ l
     | .Borrowed sl, .Borrowed sl2 =>
        sl2 = sl.take self.length ++ l ++
          sl.drop (self.length + l.length)
     | _, _ => False) := by
  unfold Transfer.writeStorage at h
  split at h
  next vec hst =>
    injection h with h2
    rw [← h2]
    exact ⟨rfl, by simp [hst]⟩
  next sl hst =>
    split_ifs at h
    injection h with h2
    rw [← h2]
    exact ⟨rfl, by simp [hst]⟩

/-- C4: for every accepted frame, the bytes appended to storage are
`data[2 .. len-1]` when the tail has start set and end clear, and
`data[0 .. len-1]` otherwise; the call returns the complete slice
`storage[0..length]` as present exactly when the tail has end set, and
absent otherwise. -/
theorem add_frame_accept_spec (self : Transfer) (data : List Nat) (d : Nat)
    (inner : List Nat)
    (hd : data.getLast? = some d)
    (hinner : inner = if Tail.start ⟨d⟩ && !Tail.end' ⟨d⟩ then
        (data.drop 2).take (data.length - 3)
      else data.take (data.length - 1))
    (r : Option (List Nat)) (s : Transfer)
    (h : Transfer.add_frame self data = some (.ok r, s)) :
    s.length = self.length + inner.length ∧
    (match self.storage, s.storage with
     | .Owned vec, .Owned vec2 => vec2 = vec ++ inner
     | .Borrowed sl, .Borrowed sl2 =>
        sl2 = sl.take self.length ++ inner ++
          sl.drop (self.length + inner.length)
     | _, _ => False) ∧
    r = (if Tail.end' ⟨d⟩ = true then some (s.storage.list.take s.length)
         else none) := by
  unfold Transfer.add_frame at h
  split at h
  · simp at h
  · split at h
    · simp at h
    next d' heq =>
      rw [hd] at heq
      injection heq with hdd
      subst hdd
      simp only [] at h
      split at h
      · simp at h
      · split at h
        next e heqc =>
          simp at h
        next self1 heqc =>
          have hck := checkTail_ok_state _ _ _ heqc
          split at h
          next heqi =>
            simp at h
          next inner' heqi =>
            -- identify inner' with the claimed slice
            have hinner' : inner' = inner := by
              rcases Bool.eq_false_or_eq_true
                  (Tail.start ⟨d⟩ && !Tail.end' ⟨d⟩) with hse | hse
              · rw [hse] at heqi
                simp only [if_true] at heqi
                obtain ⟨ha, hb, hval⟩ := sliceIdx_eq_some _ _ _ _ heqi
                rw [hinner, hse]
                simp only [if_true]
                rw [hval]
                have : data.length - 1 - 2 = data.length - 3 := by omega
                rw [this]
              · rw [hse] at heqi
                simp only [Bool.false_eq_true, if_false] at heqi
                obtain ⟨ha, hb, hval⟩ := sliceIdx_eq_some _ _ _ _ heqi
                rw [hinner, hse]
                simp only [Bool.false_eq_true, if_false]
                rw [hval]
                simp
            subst hinner'
            split at h
            next e heqw =>
              simp at h
            next self2 heqw =>
              have hw := writeStorage_ok_spec _ _ _ heqw
              split at h
              next he =>
                split at h
                next heqp =>
                  simp at h
                next payload heqp =>
                  obtain ⟨ha, hb, hval⟩ := sliceIdx_eq_some _ _ _ _ heqp
                  injection h with h1
                  injection h1 with hr hsres
                  subst hsres
                  injection hr with hr2
                  refine ⟨by rw [hw.1, hck.2], ?_, ?_⟩
                  · have := hw.2
                    rw [hck.1, hck.2] at this
                    exact this
                  · rw [if_pos he, ← hr2, hval]
                    simp
              next he =>
                injection h with h1
                injection h1 with hr hsres
                subst hsres
                injection hr with hr2
                refine ⟨by rw [hw.1, hck.2], ?_, ?_⟩
                · have := hw.2
                  rw [hck.1, hck.2] at this
                  exact this
                · rw [if_neg he, ← hr2]


/-- Witness for C9 at a concrete input (an end frame fed first yields
`FrameOrder` and leaves the fresh transfer unchanged). -/
theorem add_frame_error_preserves_state_witness :
    Transfer.new (.Owned []) = Transfer.new (.Owned []) :=
  add_frame_error_preserves_state (Transfer.new (.Owned [])) [0x40]
    .FrameOrder (Transfer.new (.Owned [])) rfl (by decide)

/-- Witness for C5 at a concrete input: a first frame with neither start
nor end set falls through to the IdMismatch check against the initial
state. -/
theorem add_frame_frameOrder_spec_witness :
    Transfer.add_frame (Transfer.new (.Owned [])) [0x01] =
      some (.error .IdMismatch, Transfer.new (.Owned [])) :=
  ((add_frame_frameOrder_spec (Transfer.new (.Owned [])) [0x01]).2
    rfl rfl rfl (by decide) (by decide) (by decide) (by decide)).1
    (by decide)

/-- Witness for C6 at a concrete input: a continuation frame with
matching transfer id and alternated toggle is accepted and updates the
stored toggle. -/
theorem add_frame_continuation_checks_witness :
    ∃ r s, Transfer.add_frame ⟨.Owned [], 0, 5, false⟩ [0x25] =
      some (r, s) ∧ s.toggle = Tail.toggle ⟨0x25⟩ :=
  (add_frame_continuation_checks ⟨.Owned [], 0, 5, false⟩ [0x25] 0x25 rfl
    (by decide) (by decide) (by decide) (fun vec hv => Nat.zero_le _)).2.2
    (by decide) (by decide)

/-- Witness for C7 at a concrete input: a 3-byte continuation frame
into a borrowed buffer of capacity 3 with 2 bytes already written
yields `BufferTooSmall` and leaves storage and length unchanged. -/
theorem add_frame_bufferTooSmall_spec_witness :
    ∃ s, Transfer.add_frame ⟨.Borrowed [0, 0, 0], 2, 0, false⟩
        [1, 2, 0x60] = some (.error .BufferTooSmall, s) ∧
      s.storage = (⟨.Borrowed [0, 0, 0], 2, 0, false⟩ : Transfer).storage ∧
      s.length = (⟨.Borrowed [0, 0, 0], 2, 0, false⟩ : Transfer).length :=
  (add_frame_bufferTooSmall_spec.1 ⟨.Borrowed [0, 0, 0], 2, 0, false⟩
    [1, 2, 0x60] 0x60 [0, 0, 0] rfl rfl (by decide) (by decide) (by decide)
    (by decide)).mpr (by decide)

/-- Witness for C4 at a concrete input: the single-frame transfer of the
source's `transfer_single` test. -/
theorem add_frame_accept_spec_witness :
    (⟨.Owned [1, 2, 3, 4], 4, 31, true⟩ : Transfer).length =
      (Transfer.new (.Owned [])).length +
        ([1, 2, 3, 4] : List Nat).length ∧
    (match (Transfer.new (.Owned [])).storage,
        (⟨.Owned [1, 2, 3, 4], 4, 31, true⟩ : Transfer).storage with
     | .Owned vec, .Owned vec2 => vec2 = vec ++ [1, 2, 3, 4]
     | .Borrowed sl, .Borrowed sl2 =>
        sl2 = sl.take (Transfer.new (.Owned [])).length ++ [1, 2, 3, 4] ++
          sl.drop ((Transfer.new (.Owned [])).length +
            ([1, 2, 3, 4] : List Nat).length)
     | _, _ => False) ∧
    (some [1, 2, 3, 4] : Option (List Nat)) =
      (if Tail.end' ⟨0xFF⟩ = true then
        some ((⟨.Owned [1, 2, 3, 4], 4, 31, true⟩ :
          Transfer).storage.list.take
            (⟨.Owned [1, 2, 3, 4], 4, 31, true⟩ : Transfer).length)
       else none) :=
  add_frame_accept_spec (Transfer.new (.Owned [])) [1, 2, 3, 4, 0xFF] 0xFF
    [1, 2, 3, 4] rfl (by decide) (some [1, 2, 3, 4])
    ⟨.Owned [1, 2, 3, 4], 4, 31, true⟩ rfl

end DroneCAN
